import Mathlib

/-!
Shallow embedding of the to-do application core (`todo.py`): the `TodoItem`
record, its serialization (`to_dict` / `from_dict`), and the `TodoManager`
collection operations (`add_todo`, `complete_todo`, `remove_todo`,
`edit_todo`, `clear_completed`, `load_todos`, `save_todos`).

Python values appearing in the storage file are dynamically typed, so the
load path is modelled over a `PyVal` type of JSON-like Python values, with
exceptions modelled by `Except PyErr`.  Records constructed through the
manager's API are always well-typed, so the manager itself is modelled over
a typed `TodoItem` structure.
-/

/-- PyVal models the Python values that can result from `json.load`:
`None`, booleans, integers, strings, lists and string-keyed dicts. -/
inductive PyVal where
  | none
  | bool (b : Bool)
  | int (n : Int)
  | str (s : String)
  | list (xs : List PyVal)
  | dict (fields : List (String × PyVal))

/-- PyErr models the Python exceptions relevant to the load path:
`KeyError` (missing dict key), `TypeError` (bad subscript / not iterable)
and `json.JSONDecodeError` (malformed file contents). -/
inductive PyErr where
  | keyError
  | typeError
  | jsonDecodeError
deriving DecidableEq

/-- Python truthiness of a value, as used by `x or y`. -/
def PyVal.truthy : PyVal → Bool
  | .none => false
  | .bool b => b
  | .int n => n != 0
  | .str s => s != ""
  | .list xs => !xs.isEmpty
  | .dict fs => !fs.isEmpty

/-- Python subscripting `data[k]` with a string key: on a dict it returns
the value or raises `KeyError`; on any other value it raises `TypeError`. -/
def PyVal.getItem : PyVal → String → Except PyErr PyVal
  | .dict fs, k =>
    match fs.lookup k with
    | some v => .ok v
    | Option.none => .error .keyError
  | _, _ => .error .typeError

/-- Python iteration over a value: lists yield their elements, strings their
one-character substrings, dicts their keys; other values raise `TypeError`. -/
def PyVal.iter : PyVal → Except PyErr (List PyVal)
  | .list xs => .ok xs
  | .str s => .ok (s.toList.map (fun c => PyVal.str (String.mk [c])))
  | .dict fs => .ok (fs.map (fun p => PyVal.str p.1))
  | _ => .error .typeError

/-- TodoItem: the task record with the (well-typed) fields the program's own
API produces: `id : int`, `description : str`, `completed : bool`,
`created_at : str` (`todo.py` lines 8-13). -/
structure TodoItem where
  id : Int
  description : String
  completed : Bool
  created_at : String
deriving DecidableEq

/-- TodoItem.init embeds `TodoItem.__init__` (todo.py lines 9-13) for
well-typed arguments.  `created_at or datetime.now().isoformat()` keeps the
supplied string unless it is falsy (`None` or the empty string), in which
case the construction-time timestamp `now` is used.  `now` is the explicit
model of `datetime.now().isoformat()`. -/
def TodoItem.init (now : String) (id : Int) (description : String)
    (completed : Bool) (created_at : Option String) : TodoItem :=
  { id := id, description := description, completed := completed,
    created_at :=
      match created_at with
      | Option.none => now
      | some s => if s = "" then now else s }

/-- TodoItem.to_dict embeds `TodoItem.to_dict` (todo.py lines 15-21). -/
def TodoItem.to_dict (t : TodoItem) : PyVal :=
  .dict [("id", .int t.id), ("description", .str t.description),
         ("completed", .bool t.completed), ("created_at", .str t.created_at)]

/-- DynItem: a task record exactly as Python stores it — each field holds an
arbitrary dynamic value, because `from_dict` performs no type checking. -/
structure DynItem where
  id : PyVal
  description : PyVal
  completed : PyVal
  created_at : PyVal

/-- DynItem.init embeds `TodoItem.__init__` over dynamic field values as it
runs on the load path: only `created_at` is filtered through `or`, using
Python truthiness. -/
def DynItem.init (now : String) (id description completed created_at : PyVal) :
    DynItem :=
  { id := id, description := description, completed := completed,
    created_at := if created_at.truthy then created_at else .str now }

/-- TodoItem.from_dict embeds `TodoItem.from_dict` (todo.py lines 23-30):
the four subscript lookups are evaluated in source order (id, description,
completed, created_at) and the first exception propagates; the looked-up
values are passed to the constructor unchecked. -/
def TodoItem.from_dict (now : String) (data : PyVal) : Except PyErr DynItem :=
  match data.getItem "id" with
  | .error e => .error e
  | .ok i =>
    match data.getItem "description" with
    | .error e => .error e
    | .ok d =>
      match data.getItem "completed" with
      | .error e => .error e
      | .ok c =>
        match data.getItem "created_at" with
        | .error e => .error e
        | .ok t => .ok (DynItem.init now i d c t)

/-- TodoItem.toDyn injects a well-typed record into its dynamic form; it is
how a typed record appears after deserialization. -/
def TodoItem.toDyn (t : TodoItem) : DynItem :=
  { id := .int t.id, description := .str t.description,
    completed := .bool t.completed, created_at := .str t.created_at }

/-- Storage models the state of the storage file as seen by `load_todos`:
the file may be absent, present but not valid JSON (so `json.load` raises
`JSONDecodeError`), or present and parsing to a `PyVal`. -/
inductive Storage where
  | missing
  | malformed
  | parsed (v : PyVal)

/-- mapFromDict embeds the list comprehension
`[TodoItem.from_dict(item) for item in data]` (todo.py line 45): items are
converted left to right and the first exception aborts the whole list. -/
def mapFromDict (now : String) : List PyVal → Except PyErr (List DynItem)
  | [] => .ok []
  | x :: xs =>
    match TodoItem.from_dict now x with
    | .error e => .error e
    | .ok t =>
      match mapFromDict now xs with
      | .error e => .error e
      | .ok ts => .ok (t :: ts)

/-- loadBody embeds the body of the `try` block in `load_todos` (todo.py
lines 43-45): iterate over the parsed value and deserialize each item. -/
def loadBody (now : String) (v : PyVal) : Except PyErr (List DynItem) :=
  match v.iter with
  | .error e => .error e
  | .ok xs => mapFromDict now xs

/-- load_todos embeds `TodoManager.load_todos` (todo.py lines 39-47),
returning the collection the constructor ends up with: `[]` when the file is
missing (the field keeps its initial value) or when `json.JSONDecodeError`
or `KeyError` is raised (the `except` clause); any other exception — in
particular `TypeError` — propagates to the caller uncaught. -/
def load_todos (now : String) (s : Storage) : Except PyErr (List DynItem) :=
  match s with
  | .missing => .ok []
  | .malformed => .ok []
  | .parsed v =>
    match loadBody now v with
    | .ok ts => .ok ts
    | .error .jsonDecodeError => .ok []
    | .error .keyError => .ok []
    | .error .typeError => .error .typeError

/-- TodoManager: the in-memory collection plus the storage file state, over
well-typed records (the form every API-constructed record has). -/
structure TodoManager where
  todos : List TodoItem
  file : Storage

/-- save_todos embeds `TodoManager.save_todos` (todo.py lines 49-53): the
file is overwritten with the JSON rendering of `to_dict` of every record in
collection order, so afterwards it parses back to exactly that list. -/
def save_todos (m : TodoManager) : TodoManager :=
  { m with file := Storage.parsed (.list (m.todos.map TodoItem.to_dict)) }

/-- listMaxDefault embeds Python's `max(xs, default=d)` on integers: the maximum
of the list when it is nonempty (ignoring `d`), and `d` when it is empty. -/
def listMaxDefault (xs : List Int) (d : Int) : Int :=
  match xs with
  | [] => d
  | x :: rest => rest.foldl max x

/-- add_todo embeds `TodoManager.add_todo` (todo.py lines 55-61): compute
`max(ids, default=0) + 1`, construct the record with default completed flag
and timestamp, append, save, return the record. -/
def add_todo (now : String) (m : TodoManager) (description : String) :
    TodoManager × TodoItem :=
  let new_id := listMaxDefault (m.todos.map (fun t => t.id)) 0 + 1
  let todo := TodoItem.init now new_id description false Option.none
  (save_todos { m with todos := m.todos ++ [todo] }, todo)

/-- updateFirst captures the `for`-loop pattern shared by `complete_todo`,
`remove_todo` and `edit_todo`: scan for the first record whose id matches;
on a hit, rebuild the list with `hit` applied to the record and the tail and
report success; otherwise report failure. -/
def updateFirst (todo_id : Int) (hit : TodoItem → List TodoItem → List TodoItem) :
    List TodoItem → Option (List TodoItem)
  | [] => Option.none
  | t :: ts =>
    if t.id = todo_id then some (hit t ts)
    else Option.map (fun us => t :: us) (updateFirst todo_id hit ts)

/-- complete_todo embeds `TodoManager.complete_todo` (todo.py lines 69-76):
first matching record gets `completed = True` (even if already true), the
collection is saved and `True` returned; with no match, `False` and no save. -/
def complete_todo (m : TodoManager) (todo_id : Int) : TodoManager × Bool :=
  match updateFirst todo_id (fun t ts => { t with completed := true } :: ts) m.todos with
  | some ts => (save_todos { m with todos := ts }, true)
  | Option.none => (m, false)

/-- remove_todo embeds `TodoManager.remove_todo` (todo.py lines 78-85):
first matching record is deleted, the collection saved and `True` returned;
with no match, `False` and no save. -/
def remove_todo (m : TodoManager) (todo_id : Int) : TodoManager × Bool :=
  match updateFirst todo_id (fun _ ts => ts) m.todos with
  | some ts => (save_todos { m with todos := ts }, true)
  | Option.none => (m, false)

/-- edit_todo embeds `TodoManager.edit_todo` (todo.py lines 103-110): first
matching record gets the new description, the collection is saved and `True`
returned; with no match, `False` and no save. -/
def edit_todo (m : TodoManager) (todo_id : Int) (new_description : String) :
    TodoManager × Bool :=
  match updateFirst todo_id (fun t ts => { t with description := new_description } :: ts) m.todos with
  | some ts => (save_todos { m with todos := ts }, true)
  | Option.none => (m, false)

/-- clear_completed embeds `TodoManager.clear_completed` (todo.py lines
94-101): keep the non-completed records (in order), count the removed ones,
and save only when that count is positive. -/
def clear_completed (m : TodoManager) : TodoManager × Nat :=
  let initial_count := m.todos.length
  let remaining := m.todos.filter (fun t => !t.completed)
  let removed_count := initial_count - remaining.length
  let m2 := { m with todos := remaining }
  (if 0 < removed_count then save_todos m2 else m2, removed_count)

/-- list_todos embeds `TodoManager.list_todos` (todo.py lines 63-67). -/
def list_todos (m : TodoManager) (show_completed : Bool) : List TodoItem :=
  if show_completed then m.todos
  else m.todos.filter (fun t => !t.completed)

/-- get_todo embeds `TodoManager.get_todo` (todo.py lines 87-92). -/
def get_todo (m : TodoManager) (todo_id : Int) : Option TodoItem :=
  m.todos.find? (fun t => t.id == todo_id)

/-- Op: one mutating manager operation, for reasoning about operation
sequences; `add` carries the construction-time timestamp. -/
inductive Op where
  | add (description : String) (now : String)
  | complete (todo_id : Int)
  | remove (todo_id : Int)
  | edit (todo_id : Int) (description : String)
  | clearCompleted

/-- applyOp runs one operation on a manager state, discarding the returned
value. -/
def applyOp (m : TodoManager) : Op → TodoManager
  | .add d now => (add_todo now m d).1
  | .complete i => (complete_todo m i).1
  | .remove i => (remove_todo m i).1
  | .edit i d => (edit_todo m i d).1
  | .clearCompleted => (clear_completed m).1

/-- applyOps runs a sequence of operations left to right. -/
def applyOps (m : TodoManager) : List Op → TodoManager
  | [] => m
  | op :: ops => applyOps (applyOp m op) ops

/-- emptyManager: the state after constructing a manager with no storage
file present — the empty collection. -/
def emptyManager : TodoManager :=
  { todos := [], file := Storage.missing }

/-- addAll runs one `add_todo` per description in the list, left to right,
all with the same construction-time timestamp. -/
def addAll (now : String) (m : TodoManager) : List String → TodoManager
  | [] => m
  | d :: ds => addAll now (add_todo now m d).1 ds

/-- rangeIds n is the id list `[1, 2, …, n]`. -/
def rangeIds (n : Nat) : List Int :=
  (List.range n).map (fun k => (k : Int) + 1)

/-- hasAllKeys decides whether a dynamic value is a dict carrying all four
record keys — exactly the condition under which `from_dict` succeeds. -/
def hasAllKeys : PyVal → Bool
  | .dict fs =>
    (fs.lookup "id").isSome && (fs.lookup "description").isSome &&
    (fs.lookup "completed").isSome && (fs.lookup "created_at").isSome
  | _ => false

/-- wellShapedRepr is written from the spec's words, not from the code: a
structured representation with keys `id` (integer), `description` (text),
`completed` (boolean), `created_at` (timestamp text).  It is the spec's
notion of "all four keys present and well-shaped". -/
def wellShapedRepr : PyVal → Bool
  | .dict fs =>
    (match fs.lookup "id" with | some (.int _) => true | _ => false) &&
    (match fs.lookup "description" with | some (.str _) => true | _ => false) &&
    (match fs.lookup "completed" with | some (.bool _) => true | _ => false) &&
    (match fs.lookup "created_at" with | some (.str _) => true | _ => false)
  | _ => false

/-! ## Helper lemmas about the embedded operations -/

theorem TodoItem.init_id (now : String) (i : Int) (d : String) (c : Bool)
    (t : Option String) : (TodoItem.init now i d c t).id = i := rfl

theorem le_foldl_max (l : List Int) (a : Int) : a ≤ l.foldl max a := by
  induction l generalizing a with
  | nil => exact le_refl a
  | cons x xs ih => exact le_trans (le_max_left a x) (ih (max a x))

theorem mem_le_foldl_max {l : List Int} {x : Int} (a : Int) (hx : x ∈ l) :
    x ≤ l.foldl max a := by
  induction l generalizing a with
  | nil => cases hx
  | cons y ys ih =>
    rcases List.mem_cons.mp hx with h | h
    · subst h
      exact le_trans (le_max_right a x) (le_foldl_max ys (max a x))
    · exact ih (max a y) h

theorem mem_le_listMaxDefault {l : List Int} {x : Int} (d : Int) (hx : x ∈ l) :
    x ≤ listMaxDefault l d := by
  cases l with
  | nil => cases hx
  | cons y ys =>
    rcases List.mem_cons.mp hx with h | h
    · subst h
      exact le_foldl_max ys x
    · exact mem_le_foldl_max y h

theorem listMaxDefault_snoc (l : List Int) (x d : Int) :
    listMaxDefault (l ++ [x]) d = max (listMaxDefault l x) x := by
  cases l with
  | nil => simp [listMaxDefault]
  | cons y ys => simp [listMaxDefault, List.foldl_append]

theorem rangeIds_succ (n : Nat) :
    rangeIds (n + 1) = rangeIds n ++ [(n : Int) + 1] := by
  simp [rangeIds, List.range_succ]

theorem listMaxDefault_rangeIds_pos : ∀ (n : Nat), 1 ≤ n → ∀ (d : Int),
    listMaxDefault (rangeIds n) d = n := by
  intro n
  induction n with
  | zero => intro h; exact absurd h (by decide)
  | succ k ih =>
    intro _ d
    rw [rangeIds_succ, listMaxDefault_snoc]
    rcases Nat.eq_zero_or_pos k with hk | hk
    · subst hk
      simp [rangeIds, listMaxDefault]
    · rw [ih hk ((k : Int) + 1), max_eq_right (by omega : (k : Int) ≤ (k : Int) + 1)]
      omega

theorem listMaxDefault_rangeIds (n : Nat) : listMaxDefault (rangeIds n) 0 = n := by
  rcases Nat.eq_zero_or_pos n with h | h
  · subst h; rfl
  · exact listMaxDefault_rangeIds_pos n h 0

theorem add_todo_ids (now : String) (m : TodoManager) (d : String) :
    ((add_todo now m d).1.todos).map (fun t => t.id) =
      m.todos.map (fun t => t.id) ++
        [listMaxDefault (m.todos.map (fun t => t.id)) 0 + 1] := by
  simp [add_todo, save_todos, TodoItem.init]

theorem addAll_ids (now : String) :
    ∀ (ds : List String) (m : TodoManager) (k : Nat),
      m.todos.map (fun t => t.id) = rangeIds k →
      (addAll now m ds).todos.map (fun t => t.id) = rangeIds (k + ds.length) := by
  intro ds
  induction ds with
  | nil =>
    intro m k hk
    simpa [addAll] using hk
  | cons d ds ih =>
    intro m k hk
    have hstep : ((add_todo now m d).1.todos).map (fun t => t.id) = rangeIds (k + 1) := by
      rw [add_todo_ids, hk, listMaxDefault_rangeIds, rangeIds_succ]
    have := ih (add_todo now m d).1 (k + 1) hstep
    simpa [addAll, Nat.add_assoc, Nat.add_comm 1 ds.length] using this

theorem updateFirst_eq_none {i : Int}
    {hit : TodoItem → List TodoItem → List TodoItem} {l : List TodoItem} :
    updateFirst i hit l = Option.none ↔ ∀ t ∈ l, t.id ≠ i := by
  induction l with
  | nil => simp [updateFirst]
  | cons t ts ih =>
    by_cases h : t.id = i
    · simp [updateFirst, h]
    · simp [updateFirst, h, ih]

theorem updateFirst_eq_some {i : Int}
    {hit : TodoItem → List TodoItem → List TodoItem} :
    ∀ {l l' : List TodoItem}, updateFirst i hit l = some l' →
      ∃ pre t post, l = pre ++ t :: post ∧ (∀ u ∈ pre, u.id ≠ i) ∧ t.id = i ∧
        l' = pre ++ hit t post := by
  intro l
  induction l with
  | nil => intro l' h; simp [updateFirst] at h
  | cons t ts ih =>
    intro l' h
    by_cases hid : t.id = i
    · refine ⟨[], t, ts, rfl, by simp, hid, ?_⟩
      simp [updateFirst, hid] at h
      exact h.symm
    · simp only [updateFirst, hid, if_false, Option.map_eq_some'] at h
      obtain ⟨us, hus, hl'⟩ := h
      obtain ⟨pre, tm, post, hsplit, hpre, htm, hus'⟩ := ih hus
      refine ⟨t :: pre, tm, post, by simp [hsplit], ?_, htm, ?_⟩
      · intro u hu
        rcases List.mem_cons.mp hu with h | h
        · subst h; exact hid
        · exact hpre u h
      · rw [← hl', hus']
        rfl

theorem updateFirst_isSome {i : Int}
    {hit : TodoItem → List TodoItem → List TodoItem} {l : List TodoItem}
    (h : ∃ t ∈ l, t.id = i) : ∃ l', updateFirst i hit l = some l' := by
  cases hu : updateFirst i hit l with
  | none =>
    obtain ⟨t, ht, hid⟩ := h
    exact absurd hid (updateFirst_eq_none.mp hu t ht)
  | some l' => exact ⟨l', rfl⟩

theorem length_filter_split {α : Type} (p : α → Bool) (l : List α) :
    (l.filter p).length + (l.filter (fun a => !p a)).length = l.length := by
  induction l with
  | nil => rfl
  | cons x xs ih =>
    by_cases h : p x <;> simp [List.filter_cons, h, ← ih] <;> omega

theorem add_todo_id_nodup (now : String) (m : TodoManager) (d : String)
    (h : (m.todos.map (fun t => t.id)).Nodup) :
    (((add_todo now m d).1.todos).map (fun t => t.id)).Nodup := by
  rw [add_todo_ids]
  have hnot : listMaxDefault (m.todos.map (fun t => t.id)) 0 + 1 ∉
      m.todos.map (fun t => t.id) := by
    intro hmem
    have := mem_le_listMaxDefault 0 hmem
    omega
  simp [List.nodup_append, h, hnot]

theorem complete_todo_ids (m : TodoManager) (i : Int) :
    ((complete_todo m i).1.todos).map (fun t => t.id) =
      m.todos.map (fun t => t.id) := by
  unfold complete_todo
  cases h : updateFirst i (fun t ts => { t with completed := true } :: ts) m.todos with
  | none => rfl
  | some ts =>
    obtain ⟨pre, t, post, hl, _, _, hts⟩ := updateFirst_eq_some h
    simp [save_todos, hts, hl]

theorem edit_todo_ids (m : TodoManager) (i : Int) (d : String) :
    ((edit_todo m i d).1.todos).map (fun t => t.id) =
      m.todos.map (fun t => t.id) := by
  unfold edit_todo
  cases h : updateFirst i (fun t ts => { t with description := d } :: ts) m.todos with
  | none => rfl
  | some ts =>
    obtain ⟨pre, t, post, hl, _, _, hts⟩ := updateFirst_eq_some h
    simp [save_todos, hts, hl]

theorem remove_todo_todos_sublist (m : TodoManager) (i : Int) :
    ((remove_todo m i).1.todos).Sublist m.todos := by
  unfold remove_todo
  cases h : updateFirst i (fun _ ts => ts) m.todos with
  | none => exact List.Sublist.refl _
  | some ts =>
    obtain ⟨pre, t, post, hl, _, _, hts⟩ := updateFirst_eq_some h
    simp only [save_todos]
    rw [hl, hts]
    exact (List.sublist_cons_self t post).append_left pre

theorem clear_completed_todos (m : TodoManager) :
    (clear_completed m).1.todos = m.todos.filter (fun t => !t.completed) := by
  unfold clear_completed
  by_cases h : 0 < m.todos.length - (m.todos.filter (fun t => !t.completed)).length <;>
    simp [h, save_todos]

theorem applyOp_id_nodup (m : TodoManager) (op : Op)
    (h : (m.todos.map (fun t => t.id)).Nodup) :
    (((applyOp m op).todos).map (fun t => t.id)).Nodup := by
  cases op with
  | add d now => exact add_todo_id_nodup now m d h
  | complete i => rw [applyOp, complete_todo_ids]; exact h
  | edit i d => rw [applyOp, edit_todo_ids]; exact h
  | remove i =>
    exact List.Nodup.sublist
      ((remove_todo_todos_sublist m i).map (fun t : TodoItem => t.id)) h
  | clearCompleted =>
    rw [applyOp, clear_completed_todos]
    exact List.Nodup.sublist
      ((List.filter_sublist m.todos).map (fun t : TodoItem => t.id)) h

theorem from_dict_to_dict_aux (now : String) (x : TodoItem) :
    TodoItem.from_dict now (TodoItem.to_dict x) =
      .ok (DynItem.init now (.int x.id) (.str x.description) (.bool x.completed)
        (.str x.created_at)) := rfl

theorem from_dict_ok_iff (now : String) (data : PyVal) :
    (∃ r, TodoItem.from_dict now data = .ok r) ↔ hasAllKeys data = true := by
  cases data with
  | dict fs =>
    simp only [TodoItem.from_dict, PyVal.getItem, hasAllKeys]
    cases fs.lookup "id" <;> cases fs.lookup "description" <;>
      cases fs.lookup "completed" <;> cases fs.lookup "created_at" <;> simp
  | none => simp [TodoItem.from_dict, PyVal.getItem, hasAllKeys]
  | bool b => simp [TodoItem.from_dict, PyVal.getItem, hasAllKeys]
  | int n => simp [TodoItem.from_dict, PyVal.getItem, hasAllKeys]
  | str s => simp [TodoItem.from_dict, PyVal.getItem, hasAllKeys]
  | list xs => simp [TodoItem.from_dict, PyVal.getItem, hasAllKeys]

theorem from_dict_keyError (now : String) (fs : List (String × PyVal))
    (h : hasAllKeys (.dict fs) = false) :
    TodoItem.from_dict now (.dict fs) = .error .keyError := by
  simp only [TodoItem.from_dict, PyVal.getItem, hasAllKeys] at h ⊢
  cases h1 : fs.lookup "id" <;> cases h2 : fs.lookup "description" <;>
    cases h3 : fs.lookup "completed" <;> cases h4 : fs.lookup "created_at" <;>
    simp [h1, h2, h3, h4] at h ⊢

theorem mapFromDict_keyError (now : String) :
    ∀ xs : List PyVal, (∀ x ∈ xs, ∃ fs, x = PyVal.dict fs) →
      (∃ x ∈ xs, hasAllKeys x = false) →
      mapFromDict now xs = .error .keyError := by
  intro xs
  induction xs with
  | nil =>
    intro _ hb
    simp at hb
  | cons y ys ih =>
    intro hd hb
    obtain ⟨fs, rfl⟩ := hd y (List.mem_cons_self y ys)
    by_cases hy : hasAllKeys (PyVal.dict fs) = false
    · rw [mapFromDict, from_dict_keyError now fs hy]
    · obtain ⟨r, hr⟩ := (from_dict_ok_iff now (.dict fs)).mpr
        (by revert hy; cases hasAllKeys (PyVal.dict fs) <;> simp)
      have hbad : ∃ x ∈ ys, hasAllKeys x = false := by
        rcases hb with ⟨x, hx, hxbad⟩
        rcases List.mem_cons.mp hx with h | h
        · subst h; exact absurd hxbad hy
        · exact ⟨x, h, hxbad⟩
      rw [mapFromDict, hr, ih (fun x hx => hd x (List.mem_cons_of_mem _ hx)) hbad]

/-! ## Claim theorems -/

/-- C3: for every valid task record `x` — in particular one whose
`created_at` is an ISO-8601 timestamp string, which is necessarily nonempty
— deserializing the serialization of `x` yields a record value-equal to `x`
in all four fields. -/
theorem c3_round_trip (now : String) (x : TodoItem) (h : x.created_at ≠ "") :
    TodoItem.from_dict now (TodoItem.to_dict x) = .ok (TodoItem.toDyn x) := by
  rw [from_dict_to_dict_aux]
  simp [DynItem.init, PyVal.truthy, TodoItem.toDyn, h]

/-- C3 witness: the round trip at a concrete record. -/
theorem c3_round_trip_witness :
    TodoItem.from_dict "2024-05-01T10:00:00" (TodoItem.to_dict
      { id := 1, description := "Buy milk", completed := false,
        created_at := "2024-01-01T00:00:00" }) =
      .ok (TodoItem.toDyn
        { id := 1, description := "Buy milk", completed := false,
          created_at := "2024-01-01T00:00:00" }) :=
  c3_round_trip "2024-05-01T10:00:00"
    { id := 1, description := "Buy milk", completed := false,
      created_at := "2024-01-01T00:00:00" } (by decide)

/-- C10: constructing a record with an empty-string `created_at` silently
replaces it with the construction-time timestamp `now` (and
`datetime.now().isoformat()` is never empty, hence `now ≠ ""`); therefore
deserializing a representation whose `created_at` is `""` yields `now` in
that field instead of `""`, and the serialize/deserialize round trip does
not preserve the record. -/
theorem c10_empty_created_at (now : String) (i : Int) (d : String) (c : Bool)
    (h : now ≠ "") :
    (TodoItem.init now i d c (some "")).created_at = now ∧
    TodoItem.from_dict now (TodoItem.to_dict
        { id := i, description := d, completed := c, created_at := "" }) =
      .ok { id := .int i, description := .str d, completed := .bool c,
            created_at := .str now } ∧
    PyVal.str now ≠ PyVal.str "" := by
  refine ⟨rfl, ?_, by simpa using h⟩
  rw [from_dict_to_dict_aux]
  simp [DynItem.init, PyVal.truthy]

/-- C10 witness: the replacement at a concrete record and timestamp. -/
theorem c10_empty_created_at_witness :
    (TodoItem.init "2024-01-01T00:00:00" 7 "read" false (some "")).created_at =
      "2024-01-01T00:00:00" ∧
    TodoItem.from_dict "2024-01-01T00:00:00" (TodoItem.to_dict
        { id := 7, description := "read", completed := false,
          created_at := "" }) =
      .ok { id := .int 7, description := .str "read", completed := .bool false,
            created_at := .str "2024-01-01T00:00:00" } ∧
    PyVal.str "2024-01-01T00:00:00" ≠ PyVal.str "" :=
  c10_empty_created_at "2024-01-01T00:00:00" 7 "read" false (by decide)

/-- badShapeRec: a structured representation with all four keys present but
an ill-shaped `id` (a string instead of an integer). -/
def badShapeRec : PyVal :=
  .dict [("id", .str "x"), ("description", .str "a"),
         ("completed", .bool true), ("created_at", .str "t")]

/-- C8 counterexample: the claim says deserialization fails when a required
key is of the wrong shape, but `from_dict` accepts `badShapeRec` — whose
`id` is not an integer, so the representation is not well-shaped in the
spec's sense — and reconstructs it with the ill-shaped values unchecked. -/
theorem c8_wrong_shape_accepted :
    TodoItem.from_dict "T" badShapeRec =
      .ok { id := .str "x", description := .str "a", completed := .bool true,
            created_at := .str "t" } ∧
    wellShapedRepr badShapeRec = false :=
  ⟨rfl, rfl⟩

/-- C8 amended: deserialization fails iff one of the four required keys is
absent from the structured representation (`hasAllKeys` is false exactly
then, also when the representation is not a dict at all); value shapes are
never checked, so any present values are accepted and passed through. -/
theorem c8_from_dict_ok_iff_keys (now : String) (data : PyVal) :
    (∃ r, TodoItem.from_dict now data = .ok r) ↔ hasAllKeys data = true :=
  from_dict_ok_iff now data

/-- wrongShapeRec: a record with all four keys but an `id` that is a string
rather than an integer. -/
def wrongShapeRec : PyVal :=
  .dict [("id", .str "x"), ("description", .str "task"),
         ("completed", .bool false), ("created_at", .str "t")]

/-- C2 counterexample: the claim says storage containing a record with
wrong-shaped fields loads as the empty collection, but a file parsing to
`[wrongShapeRec]` — whose `id` is ill-shaped — loads successfully to a
NON-empty collection containing the ill-shaped record unchanged. -/
theorem c2_wrong_shape_loads_nonempty :
    wellShapedRepr wrongShapeRec = false ∧
    load_todos "T" (Storage.parsed (.list [wrongShapeRec])) =
      .ok [{ id := .str "x", description := .str "task",
             completed := .bool false, created_at := .str "t" }] ∧
    [({ id := .str "x", description := .str "task", completed := .bool false,
        created_at := .str "t" } : DynItem)] ≠ [] :=
  ⟨rfl, rfl, by simp⟩

/-- C2 amended: construction succeeds with the empty collection when storage
is missing, malformed, or parses to a list of dicts at least one of which
lacks a required key (the all-or-nothing `KeyError` fallback).  Records with
all four keys but wrong-shaped values are instead loaded as-is, and a
non-dict record raises an uncaught `TypeError` (see the counterexample and
`load_todos`). -/
theorem c2_load_fallback (now : String) (xs : List PyVal) :
    load_todos now Storage.missing = .ok [] ∧
    load_todos now Storage.malformed = .ok [] ∧
    ((∀ x ∈ xs, ∃ fs, x = PyVal.dict fs) → (∃ x ∈ xs, hasAllKeys x = false) →
      load_todos now (Storage.parsed (.list xs)) = .ok []) := by
  refine ⟨rfl, rfl, fun hd hb => ?_⟩
  have hm := mapFromDict_keyError now xs hd hb
  simp [load_todos, loadBody, PyVal.iter, hm]

/-- missingKeyRec: a record lacking every required key but `id`. -/
def missingKeyRec : PyVal := .dict [("id", .int 1)]

/-- C2 witness: the fallback at concrete storage contents. -/
theorem c2_load_fallback_witness :
    load_todos "T" Storage.missing = .ok [] ∧
    load_todos "T" (Storage.parsed (.list [missingKeyRec])) = .ok [] := by
  refine ⟨(c2_load_fallback "T" []).1, ?_⟩
  refine (c2_load_fallback "T" [missingKeyRec]).2.2 ?_ ?_
  · intro x hx
    rw [List.mem_singleton] at hx
    subst hx
    exact ⟨[("id", .int 1)], rfl⟩
  · exact ⟨missingKeyRec, List.mem_singleton.mpr rfl, rfl⟩

/-- C4: `Add` returns a record whose id is `(maximum existing id, or 0 if
empty) + 1`, whose description is the given one and whose completed flag is
false; it appends that record at the end of the collection and persists the
whole collection; and successive Adds starting from the empty collection
assign ids exactly `[1, 2, …, n]` (`rangeIds n`) in call order. -/
theorem c4_add_spec (now : String) (m : TodoManager) (d : String)
    (ds : List String) :
    (add_todo now m d).2 =
      { id := listMaxDefault (m.todos.map (fun t => t.id)) 0 + 1,
        description := d, completed := false, created_at := now } ∧
    (add_todo now m d).1.todos = m.todos ++ [(add_todo now m d).2] ∧
    (add_todo now m d).1.file = Storage.parsed
      (.list (((add_todo now m d).1.todos).map TodoItem.to_dict)) ∧
    (addAll now emptyManager ds).todos.map (fun t => t.id) =
      rangeIds ds.length := by
  refine ⟨rfl, rfl, rfl, ?_⟩
  have h := addAll_ids now ds emptyManager 0 rfl
  simpa using h

/-- C5: `Complete(id)` on a collection containing a matching record marks
the first such record completed (also when it already was), persists, and
returns true; on a collection with no matching record it returns false and
leaves both the collection and the storage unchanged. -/
theorem c5_complete_spec (m : TodoManager) (i : Int) :
    ((∃ t ∈ m.todos, t.id = i) →
      (complete_todo m i).2 = true ∧
      ∃ pre t post, m.todos = pre ++ t :: post ∧ (∀ u ∈ pre, u.id ≠ i) ∧
        t.id = i ∧
        (complete_todo m i).1.todos =
          pre ++ { t with completed := true } :: post ∧
        (complete_todo m i).1.file = Storage.parsed (.list
          ((pre ++ { t with completed := true } :: post).map TodoItem.to_dict))) ∧
    ((¬ ∃ t ∈ m.todos, t.id = i) → complete_todo m i = (m, false)) := by
  constructor
  · intro hex
    obtain ⟨l', hl'⟩ :=
      @updateFirst_isSome i (fun t ts => { t with completed := true } :: ts)
        m.todos hex
    obtain ⟨pre, t, post, hsplit, hpre, hid, hform⟩ := updateFirst_eq_some hl'
    subst hform
    have hcomp : complete_todo m i =
        (save_todos { m with
          todos := pre ++ { t with completed := true } :: post }, true) := by
      unfold complete_todo
      rw [hl']
    rw [hcomp]
    exact ⟨rfl, pre, t, post, hsplit, hpre, hid, rfl, rfl⟩
  · intro hn
    have hnone : updateFirst i (fun t ts => { t with completed := true } :: ts)
        m.todos = Option.none := by
      rw [updateFirst_eq_none]
      intro t ht hti
      exact hn ⟨t, ht, hti⟩
    unfold complete_todo
    rw [hnone]

/-- c5M: a one-record collection used to instantiate the Complete and Edit
specifications. -/
def c5M : TodoManager :=
  { todos := [{ id := 1, description := "a", completed := false,
                created_at := "t" }], file := Storage.missing }

/-- C5 witness: Complete at a present id (1) and at an absent id (2) of a
concrete collection. -/
theorem c5_complete_spec_witness :
    ((complete_todo c5M 1).2 = true ∧
      ∃ pre t post, c5M.todos = pre ++ t :: post ∧ (∀ u ∈ pre, u.id ≠ 1) ∧
        t.id = 1 ∧
        (complete_todo c5M 1).1.todos =
          pre ++ { t with completed := true } :: post ∧
        (complete_todo c5M 1).1.file = Storage.parsed (.list
          ((pre ++ { t with completed := true } :: post).map TodoItem.to_dict))) ∧
    complete_todo c5M 2 = (c5M, false) :=
  ⟨(c5_complete_spec c5M 1).1
      ⟨{ id := 1, description := "a", completed := false, created_at := "t" },
        by simp [c5M], rfl⟩,
    (c5_complete_spec c5M 2).2 (by simp [c5M])⟩

/-- C7: `Edit(id, d)` on a collection containing a matching record replaces
only the first such record's description — its id, completed flag and
created_at are unchanged, and every record before and after it is unchanged
— persists, and returns true; with no matching record it returns false and
changes nothing. -/
theorem c7_edit_spec (m : TodoManager) (i : Int) (d : String) :
    ((∃ t ∈ m.todos, t.id = i) →
      (edit_todo m i d).2 = true ∧
      ∃ pre t post, m.todos = pre ++ t :: post ∧ (∀ u ∈ pre, u.id ≠ i) ∧
        t.id = i ∧
        (edit_todo m i d).1.todos =
          pre ++ { t with description := d } :: post ∧
        ({ t with description := d } : TodoItem).id = t.id ∧
        ({ t with description := d } : TodoItem).completed = t.completed ∧
        ({ t with description := d } : TodoItem).created_at = t.created_at ∧
        ({ t with description := d } : TodoItem).description = d ∧
        (edit_todo m i d).1.file = Storage.parsed (.list
          ((pre ++ { t with description := d } :: post).map TodoItem.to_dict))) ∧
    ((¬ ∃ t ∈ m.todos, t.id = i) → edit_todo m i d = (m, false)) := by
  constructor
  · intro hex
    obtain ⟨l', hl'⟩ :=
      @updateFirst_isSome i (fun t ts => { t with description := d } :: ts)
        m.todos hex
    obtain ⟨pre, t, post, hsplit, hpre, hid, hform⟩ := updateFirst_eq_some hl'
    subst hform
    have hed : edit_todo m i d =
        (save_todos { m with
          todos := pre ++ { t with description := d } :: post }, true) := by
      unfold edit_todo
      rw [hl']
    rw [hed]
    exact ⟨rfl, pre, t, post, hsplit, hpre, hid, rfl, rfl, rfl, rfl, rfl, rfl⟩
  · intro hn
    have hnone : updateFirst i (fun t ts => { t with description := d } :: ts)
        m.todos = Option.none := by
      rw [updateFirst_eq_none]
      intro t ht hti
      exact hn ⟨t, ht, hti⟩
    unfold edit_todo
    rw [hnone]

/-- C7 witness: Edit at a present id (1) and at an absent id (2) of a
concrete collection. -/
theorem c7_edit_spec_witness :
    ((edit_todo c5M 1 "b").2 = true ∧
      ∃ pre t post, c5M.todos = pre ++ t :: post ∧ (∀ u ∈ pre, u.id ≠ 1) ∧
        t.id = 1 ∧
        (edit_todo c5M 1 "b").1.todos =
          pre ++ { t with description := "b" } :: post ∧
        ({ t with description := "b" } : TodoItem).id = t.id ∧
        ({ t with description := "b" } : TodoItem).completed = t.completed ∧
        ({ t with description := "b" } : TodoItem).created_at = t.created_at ∧
        ({ t with description := "b" } : TodoItem).description = "b" ∧
        (edit_todo c5M 1 "b").1.file = Storage.parsed (.list
          ((pre ++ { t with description := "b" } :: post).map TodoItem.to_dict))) ∧
    edit_todo c5M 2 "b" = (c5M, false) :=
  ⟨(c7_edit_spec c5M 1 "b").1
      ⟨{ id := 1, description := "a", completed := false, created_at := "t" },
        by simp [c5M], rfl⟩,
    (c7_edit_spec c5M 2 "b").2 (by simp [c5M])⟩

theorem clear_completed_count (m : TodoManager) :
    (clear_completed m).2 = (m.todos.filter (fun t => t.completed)).length := by
  show m.todos.length - (m.todos.filter (fun t => !t.completed)).length = _
  have h := length_filter_split (fun t : TodoItem => t.completed) m.todos
  omega

/-- C6: `ClearCompleted` keeps exactly the non-completed records in their
original relative order (a `filter`), returns the number of completed
records it removed, persists exactly when that count is positive (the state
— including the storage — is unchanged when the count is 0), and an
immediately repeated call returns 0. -/
theorem c6_clear_spec (m : TodoManager) :
    (clear_completed m).1.todos = m.todos.filter (fun t => !t.completed) ∧
    (clear_completed m).2 = (m.todos.filter (fun t => t.completed)).length ∧
    (0 < (clear_completed m).2 →
      (clear_completed m).1.file = Storage.parsed
        (.list ((m.todos.filter (fun t => !t.completed)).map TodoItem.to_dict))) ∧
    ((clear_completed m).2 = 0 → (clear_completed m).1 = m) ∧
    (clear_completed (clear_completed m).1).2 = 0 := by
  have hite : (clear_completed m).1 =
      if 0 < m.todos.length - (m.todos.filter (fun t => !t.completed)).length
      then save_todos { m with todos := m.todos.filter (fun t => !t.completed) }
      else { m with todos := m.todos.filter (fun t => !t.completed) } := rfl
  refine ⟨clear_completed_todos m, clear_completed_count m, ?_, ?_, ?_⟩
  · intro h
    have h' : 0 < m.todos.length -
        (m.todos.filter (fun t => !t.completed)).length := h
    rw [hite, if_pos h']
    rfl
  · intro h0
    have h0' : m.todos.length -
        (m.todos.filter (fun t => !t.completed)).length = 0 := h0
    rw [hite, if_neg (by omega)]
    have hsum := length_filter_split (fun t : TodoItem => !t.completed) m.todos
    have hlen : (m.todos.filter (fun t => !t.completed)).length =
        m.todos.length := by omega
    rw [(List.filter_sublist m.todos).eq_of_length hlen]
  · rw [clear_completed_count, clear_completed_todos]
    simp [List.filter_filter]

/-- c6M: a collection with one completed and one pending record. -/
def c6M : TodoManager :=
  { todos := [{ id := 1, description := "a", completed := true,
                created_at := "t" },
              { id := 2, description := "b", completed := false,
                created_at := "t" }], file := Storage.missing }

/-- c6M0: a collection with no completed record. -/
def c6M0 : TodoManager :=
  { todos := [{ id := 2, description := "b", completed := false,
                created_at := "t" }], file := Storage.missing }

/-- C6 witness: clearing a concrete collection with one completed record
persists the remainder, and clearing one with no completed record leaves
the state untouched. -/
theorem c6_clear_spec_witness :
    (clear_completed c6M).1.todos = c6M.todos.filter (fun t => !t.completed) ∧
    (clear_completed c6M).1.file = Storage.parsed
      (.list ((c6M.todos.filter (fun t => !t.completed)).map TodoItem.to_dict)) ∧
    (clear_completed c6M0).1 = c6M0 ∧
    (clear_completed (clear_completed c6M).1).2 = 0 :=
  ⟨(c6_clear_spec c6M).1,
    (c6_clear_spec c6M).2.2.1 (by decide),
    (c6_clear_spec c6M0).2.2.2.1 (by decide),
    (c6_clear_spec c6M).2.2.2.2⟩

/-- c1State1: the manager after `Add("a")` on an empty collection
(the record gets id 1). -/
def c1State1 : TodoManager := (add_todo "t1" emptyManager "a").1

/-- c1State2: the manager after a further `Add("b")` (the record gets
id 2). -/
def c1State2 : TodoManager := (add_todo "t2" c1State1 "b").1

/-- c1State3: the manager after `Remove(2)`; the collection still holds the
record with id 1, so it is not empty. -/
def c1State3 : TodoManager := (remove_todo c1State2 2).1

/-- C1 counterexample: in the trace Add("a") → id 1, Add("b") → id 2,
Remove(2) → true, the next Add returns id 2 — an id previously removed —
while the collection is NOT empty (it still has one record), so neither the
strict-increase nor the no-reuse part of the claim holds, and the
restart-at-1 exception does not apply. -/
theorem c1_add_reuses_removed_id :
    (add_todo "t2" c1State1 "b").2.id = 2 ∧
    (remove_todo c1State2 2).2 = true ∧
    c1State3.todos.length = 1 ∧
    (add_todo "t4" c1State3 "c").2.id = 2 :=
  ⟨rfl, rfl, rfl, rfl⟩

/-- C1 amended: along every operation sequence from the empty collection,
an Add returns `(current maximum id, or 0) + 1`, which is strictly greater
than every id present in the collection at that moment — so an id still in
the collection is never reassigned; but an id freed by a removal CAN be
returned by a later Add whenever the removal lowered the current maximum,
not only after the collection becomes empty. -/
theorem c1_add_id_exceeds_current (ops : List Op) (d now : String) :
    (add_todo now (applyOps emptyManager ops) d).2.id =
      listMaxDefault
        ((applyOps emptyManager ops).todos.map (fun t => t.id)) 0 + 1 ∧
    ∀ t ∈ (applyOps emptyManager ops).todos,
      t.id < (add_todo now (applyOps emptyManager ops) d).2.id := by
  refine ⟨rfl, fun t ht => ?_⟩
  have hle : t.id ≤ listMaxDefault
      ((applyOps emptyManager ops).todos.map (fun t => t.id)) 0 :=
    mem_le_listMaxDefault 0 (List.mem_map_of_mem (fun t : TodoItem => t.id) ht)
  have hid : (add_todo now (applyOps emptyManager ops) d).2.id =
      listMaxDefault
        ((applyOps emptyManager ops).todos.map (fun t => t.id)) 0 + 1 := rfl
  omega

/-- C1 witness: after the single operation Add("a") the collection holds
the record with id 1, and a further Add returns the current maximum plus
one, strictly above id 1. -/
theorem c1_add_id_exceeds_current_witness :
    (add_todo "t2" (applyOps emptyManager [Op.add "a" "t1"]) "b").2.id =
      listMaxDefault
        ((applyOps emptyManager [Op.add "a" "t1"]).todos.map (fun t => t.id)) 0
        + 1 ∧
    ({ id := 1, description := "a", completed := false,
       created_at := "t1" } : TodoItem).id <
      (add_todo "t2" (applyOps emptyManager [Op.add "a" "t1"]) "b").2.id :=
  ⟨(c1_add_id_exceeds_current [Op.add "a" "t1"] "b" "t2").1,
    (c1_add_id_exceeds_current [Op.add "a" "t1"] "b" "t2").2
      { id := 1, description := "a", completed := false, created_at := "t1" }
      (by decide)⟩

/-- dupRecA and dupRecB: two well-shaped records that share the id 1. -/
def dupRecA : PyVal :=
  .dict [("id", .int 1), ("description", .str "a"),
         ("completed", .bool false), ("created_at", .str "t")]

/-- dupRecB: see dupRecA. -/
def dupRecB : PyVal :=
  .dict [("id", .int 1), ("description", .str "b"),
         ("completed", .bool false), ("created_at", .str "t")]

/-- C9 counterexample: constructing a manager over storage that parses to
two records with the same id succeeds and yields a collection whose two
records have EQUAL ids, so id uniqueness does not hold in every state
reachable through construction from arbitrary storage contents. -/
theorem c9_load_duplicate_ids :
    load_todos "T" (Storage.parsed (.list [dupRecA, dupRecB])) =
      .ok [{ id := .int 1, description := .str "a", completed := .bool false,
             created_at := .str "t" },
           { id := .int 1, description := .str "b", completed := .bool false,
             created_at := .str "t" }] ∧
    ({ id := .int 1, description := .str "a", completed := .bool false,
       created_at := .str "t" } : DynItem).id =
      ({ id := .int 1, description := .str "b", completed := .bool false,
         created_at := .str "t" } : DynItem).id :=
  ⟨rfl, rfl⟩

/-- C9 amended: id uniqueness is preserved by every operation sequence —
in every state reached from a collection with pairwise-distinct ids (in
particular the empty collection that a missing, malformed or key-deficient
storage produces) by any sequence of Add, Complete, Remove, Edit and
ClearCompleted, the ids are pairwise distinct; but construction can load
duplicate ids from storage, so the invariant does not hold for arbitrary
storage contents. -/
theorem c9_ops_preserve_nodup (m : TodoManager) (ops : List Op)
    (h : (m.todos.map (fun t => t.id)).Nodup) :
    (((applyOps m ops).todos).map (fun t => t.id)).Nodup := by
  induction ops generalizing m with
  | nil => exact h
  | cons op ops ih => exact ih (applyOp m op) (applyOp_id_nodup m op h)

/-- C9 witness: distinct ids along a concrete operation sequence from the
empty collection. -/
theorem c9_ops_preserve_nodup_witness :
    (((applyOps emptyManager
      [Op.add "a" "t", Op.add "b" "t", Op.remove 1]).todos).map
        (fun t => t.id)).Nodup :=
  c9_ops_preserve_nodup emptyManager
    [Op.add "a" "t", Op.add "b" "t", Op.remove 1] (by decide)
